import Mathlib

/-!
Verification of the dispensing-control slice of src/gui.py (stirrer repository).

Shallow embedding notes:
* Weights are modelled as rationals; the Python source uses floats, whose
  arithmetic on the magnitudes involved agrees with exact arithmetic for every
  comparison proved below.  Python round(x, n) (banker rounding to n decimal
  digits) is modelled exactly on rationals by pyRound / roundTo.
* Output keys are the pairs (tank, stirrer); the source encodes them as the
  strings "tank{t}_stirrer{s}" and parses them back with an exact round trip,
  so the pair representation is faithful.
* Python sets (active_outputs, paused_outputs) are modelled as duplicate-free
  lists with membership-insert and filter-discard; set-valued results are
  stated up to membership where iteration order is unspecified in the source.
* GPIO simulation and hardware mode act identically on the tracked set of
  asserted outputs (active_outputs); the embedding models that set.
* GUI table and label updates are presentation-only and are omitted, as are
  file-system paths; the run-log file is modelled as the list of log records
  emitted by a tick.
-/

namespace Stirrer

/-- Step status strings "Waiting" / "Dispensing" / "Complete" used in gui.py. -/
inductive StepStatus where
  | Waiting
  | Dispensing
  | Complete
deriving DecidableEq, Repr

/-- One dispensing step, as built by MainWindow.start_production (gui.py:634-645). -/
structure DispensingStep where
  tankNumber : ℕ
  tankName : String
  tankContents : String
  chemical : String
  percentage : ℚ
  targetWeight : ℚ
  dispensedWeight : ℚ
  startWeight : ℚ
  status : StepStatus
deriving DecidableEq, Repr

/-- Station status strings "Active" / "Complete". -/
inductive ProcStatus where
  | Active
  | Complete
deriving DecidableEq, Repr

/-- Per-station run state, as built by start_production (gui.py:648-655). -/
structure StirrerProc where
  steps : List DispensingStep
  currentStep : ℕ
  status : ProcStatus
deriving DecidableEq, Repr

/-- An output key (tank number, stirrer number); the source writes it as the
string tank-t-underscore-stirrer-s. -/
abbrev OutputKey := ℕ × ℕ

/-- The gpio_map dictionary: key to optional BCM pin (None means no line). -/
abbrev GpioMap := List (OutputKey × Option ℕ)

/-- Dictionary lookup gpio_map.get(key) (gui.py:233). -/
def gpioGet : GpioMap → OutputKey → Option ℕ
  | [], _ => none
  | (k, p) :: rest, q => if k = q then p else gpioGet rest q

/-- Python set.add on the list model. -/
def setAdd (active : List OutputKey) (k : OutputKey) : List OutputKey :=
  if k ∈ active then active else k :: active

/-- Python set.discard on the list model. -/
def setDiscard (active : List OutputKey) (k : OutputKey) : List OutputKey :=
  active.filter (fun x => decide (x ≠ k))

/-- MainWindow.set_output (gui.py:229-258): a key with no pin mapping is a
no-op; otherwise the key is added to / discarded from active_outputs. -/
def set_output (m : GpioMap) (active : List OutputKey) (tank stirrer : ℕ)
    (turnOn : Bool) : List OutputKey :=
  match gpioGet m (tank, stirrer) with
  | none => active
  | some _ =>
    if turnOn then setAdd active (tank, stirrer)
    else setDiscard active (tank, stirrer)

/-- MainWindow.cleanup_gpio (gui.py:260-283): walk every gpio_map entry, skip
entries with pin None, and discard every other key from active_outputs. -/
def cleanup_gpio (m : GpioMap) (active : List OutputKey) : List OutputKey :=
  m.foldl (fun acc kp =>
    match kp.2 with
    | none => acc
    | some _ => setDiscard acc kp.1) active

/-- The process-relevant fields of MainWindow. -/
structure SysState where
  stirrerProcesses : List (ℕ × StirrerProc)
  currentStirrerIndex : ℕ
  gpioMap : GpioMap
  activeOutputs : List OutputKey
  pausedOutputs : List OutputKey
  serOpen : Bool
  timerActive : Bool
deriving DecidableEq

/-- MainWindow.stop_process (gui.py:1173-1198): stop the timer, close the
serial connection, run cleanup_gpio, and clear all per-stirrer run state. -/
def stop_process (st : SysState) : SysState :=
  { st with
    timerActive := false,
    serOpen := false,
    activeOutputs := cleanup_gpio st.gpioMap st.activeOutputs,
    stirrerProcesses := [] }

/-- The outer except handler of MainWindow.update_process (gui.py:956-958):
an exception that escapes the tick body is caught, printed, and stop_process
is invoked on whatever state the tick had reached.  Exceptions raised while
talking to the weight channel never reach this handler (read_weight catches
them all and returns None, gui.py:43-56), and neither do output-driver
exceptions (caught inside set_output at gui.py:238-258, whose call sites are
wrapped again at gui.py:885-888 and 919-922) or run-log write failures
(caught inside update_dispensing_log, gui.py:76-118); only other failures of
the tick body, such as a missing GUI table entry, land here. -/
def update_process_on_exception (st : SysState) : SysState :=
  stop_process st

/-- Dictionary lookup stirrer_processes.get(s) (gui.py:816). -/
def lookupProc : List (ℕ × StirrerProc) → ℕ → Option StirrerProc
  | [], _ => none
  | (n, p) :: rest, q => if n = q then some p else lookupProc rest q

/-- The resume-time re-assert condition of toggle_pause (gui.py:816-821): the
owning stirrer exists, its current step index is in range, and that step still
references this tank and is still Dispensing. -/
def stillDispensing (procs : List (ℕ × StirrerProc)) (k : OutputKey) : Bool :=
  match lookupProc procs k.2 with
  | none => false
  | some proc =>
    match proc.steps[proc.currentStep]? with
    | none => false
    | some cur =>
      decide (cur.tankNumber = k.1) && decide (cur.status = StepStatus.Dispensing)

/-- The pause branch loop of toggle_pause (gui.py:790-799): deassert each
recorded key. -/
def deassert_outputs (m : GpioMap) (keys : List OutputKey)
    (active : List OutputKey) : List OutputKey :=
  keys.foldl (fun acc k => set_output m acc k.1 k.2 false) active

/-- The resume branch loop of toggle_pause (gui.py:810-824): re-assert each
paused key whose owning current step is still Dispensing on this tank. -/
def resume_outputs (m : GpioMap) (procs : List (ℕ × StirrerProc))
    (keys : List OutputKey) (active : List OutputKey) : List OutputKey :=
  keys.foldl (fun acc k =>
    if stillDispensing procs k then set_output m acc k.1 k.2 true else acc) active

/-- MainWindow.toggle_pause (gui.py:781-831). -/
def toggle_pause (st : SysState) : SysState :=
  if st.timerActive then
    { st with
      timerActive := false,
      pausedOutputs := st.activeOutputs,
      activeOutputs :=
        deassert_outputs st.gpioMap st.activeOutputs st.activeOutputs }
  else
    { st with
      timerActive := true,
      activeOutputs :=
        resume_outputs st.gpioMap st.stirrerProcesses st.pausedOutputs
          st.activeOutputs,
      pausedOutputs := [] }

/-- The outcome of one read_weight interaction with the serial port: no
bytes arrived, a frame arrived whose stripped text parsed (some value) or
failed to parse (none, covering the caught float conversion error), or the
serial interaction itself (write, sleep, read, decode) raised an exception,
which the except clause at gui.py:55-56 catches. -/
inductive SerialResp where
  | noBytes
  | frame (parsed : Option ℚ)
  | raised
deriving DecidableEq, Repr

/-- read_weight (gui.py:41-57): its whole body is wrapped in one
try-except, so it returns none when the port is closed, when no bytes
arrive, when the frame does not parse, or when any exception is raised while
talking to the serial port; otherwise the parsed weight.  A weight-channel
exception therefore surfaces to the caller only as a no-reading tick. -/
def read_weight (serOpen : Bool) (resp : SerialResp) : Option ℚ :=
  if serOpen then
    match resp with
    | SerialResp.noBytes => none
    | SerialResp.frame p => p
    | SerialResp.raised => none
  else none

/-- Python round to integer: nearest, ties to even. -/
def pyRound (x : ℚ) : ℤ :=
  if x - ⌊x⌋ < 1 / 2 then ⌊x⌋
  else if 1 / 2 < x - ⌊x⌋ then ⌊x⌋ + 1
  else if ⌊x⌋ % 2 = 0 then ⌊x⌋ else ⌊x⌋ + 1

/-- Python round(x, nd) on exact rationals. -/
def roundTo (nd : ℕ) (x : ℚ) : ℚ :=
  ((pyRound (x * 10 ^ nd) : ℤ) : ℚ) / 10 ^ nd

/-- One step record of the run-log file (gui.py:94-109). -/
structure LogEntry where
  stirrer : ℕ
  stepNum : ℕ
  chemical : String
  target_weight_kg : ℚ
  dispensed_weight_kg : ℚ
  progress_percent : ℚ
  status : StepStatus
  source_tank : String
  tank_contents : String
  tank_number : ℕ
deriving DecidableEq, Repr

/-- update_dispensing_log (gui.py:73-118): the record written for one step.
Target and dispensed are rounded to 3 decimals; progress is the raw quotient
dispensed / target times 100 (0 when target is not positive) rounded to 1
decimal.  Omission of falsy optional tank fields in the JSON is not modelled;
no claim depends on it. -/
def update_dispensing_log (stirrer stepNum : ℕ) (chemical : String)
    (target dispensed : ℚ) (status : StepStatus)
    (tankName tankContents : String) (tankNumber : ℕ) : LogEntry :=
  { stirrer := stirrer,
    stepNum := stepNum,
    chemical := chemical,
    target_weight_kg := roundTo 3 target,
    dispensed_weight_kg := roundTo 3 dispensed,
    progress_percent := roundTo 1 (if 0 < target then dispensed / target * 100 else 0),
    status := status,
    source_tank := tankName,
    tank_contents := tankContents,
    tank_number := tankNumber }

/-- The progress expression of gui.py:894: min(100, dispensed / target * 100)
when target is positive, else 0. -/
def stepProgress (dispensed target : ℚ) : ℚ :=
  if 0 < target then min 100 (dispensed / target * 100) else 0

/-- Result of one tick on the currently polled stirrer. -/
structure TickResult where
  active : List OutputKey
  proc : StirrerProc
  logs : List LogEntry
  advance : Bool
deriving DecidableEq

/-- The per-stirrer body of MainWindow.update_process (gui.py:861-954), acting
on the currently polled stirrer.  The reading argument is the value returned
by read_weight for the current step channel on this tick.  The advance flag
records whether current_stirrer_index is incremented.  The branch for a
missing step record under an in-range index is unreachable and is a no-op. -/
def proc_tick (m : GpioMap) (active : List OutputKey) (num : ℕ)
    (proc : StirrerProc) (reading : Option ℚ) : TickResult :=
  if proc.steps.length ≤ proc.currentStep then
    { active := active, proc := { proc with status := ProcStatus.Complete },
      logs := [], advance := true }
  else
    match proc.steps[proc.currentStep]?, reading with
    | none, _ => { active := active, proc := proc, logs := [], advance := false }
    | some _, none => { active := active, proc := proc, logs := [], advance := false }
    | some step0, some w =>
      let idx := proc.currentStep
      let t := step0.tankNumber
      let sp : DispensingStep × List OutputKey :=
        if step0.startWeight = 0 then
          ({ step0 with startWeight := w, status := StepStatus.Dispensing },
            set_output m active t num true)
        else (step0, active)
      let step1 := sp.1
      let active1 := sp.2
      let dispensed := step1.startWeight - w
      let step2 := { step1 with dispensedWeight := max 0 dispensed }
      let target := step2.targetWeight
      let progress : ℚ := stepProgress dispensed target
      let log1 := update_dispensing_log num (idx + 1) step2.chemical target
        dispensed step2.status step2.tankName step2.tankContents t
      if 100 ≤ progress then
        let step3 := { step2 with status := StepStatus.Complete }
        let active2 := set_output m active1 t num false
        let log2 := update_dispensing_log num (idx + 1) step3.chemical target
          dispensed StepStatus.Complete step3.tankName step3.tankContents t
        let steps1 := proc.steps.set idx step3
        match steps1[idx + 1]? with
        | some nxt =>
          let steps2 := steps1.set (idx + 1) { nxt with startWeight := 0 }
          let proc2 := { proc with steps := steps2, currentStep := idx + 1 }
          { active := active2, proc := proc2, logs := [log1, log2],
            advance := false }
        | none =>
          let proc2 := { proc with
            steps := steps1
            currentStep := idx + 1
            status := ProcStatus.Complete }
          { active := active2, proc := proc2, logs := [log1, log2],
            advance := true }
      else
        let proc2 := { proc with steps := proc.steps.set idx step2 }
        { active := active1, proc := proc2, logs := [log1], advance := false }

/-- MainWindow.set_output with its internal except branch (gui.py:238-258)
made explicit.  In hardware mode the GPIO.output call sits before the
tracking update of active_outputs, so an exception raised by the output
driver (drvFail = true) is caught and printed at gui.py:257-258 with the
tracking update skipped and the asserted set returned unchanged; with
drvFail = false this is exactly set_output. -/
def set_output_drv (drvFail : Bool) (m : GpioMap) (active : List OutputKey)
    (tank stirrer : ℕ) (turnOn : Bool) : List OutputKey :=
  match gpioGet m (tank, stirrer) with
  | none => active
  | some _ =>
    if drvFail then active
    else if turnOn then setAdd active (tank, stirrer)
    else setDiscard active (tank, stirrer)

/-- proc_tick with the output-driver exception path made explicit: with
drvFail = true every output-driver interaction of the tick raises and is
caught inside set_output (and the call sites are wrapped again at
gui.py:885-888 and 919-922), so only the assertion-tracking updates are
skipped; the step mutations of gui.py:882-883, the dispensed computation,
the log writes and the step advance all still happen.  With drvFail = false
this is exactly proc_tick. -/
def proc_tick_drv (drvFail : Bool) (m : GpioMap) (active : List OutputKey)
    (num : ℕ) (proc : StirrerProc) (reading : Option ℚ) : TickResult :=
  if proc.steps.length ≤ proc.currentStep then
    { active := active, proc := { proc with status := ProcStatus.Complete },
      logs := [], advance := true }
  else
    match proc.steps[proc.currentStep]?, reading with
    | none, _ => { active := active, proc := proc, logs := [], advance := false }
    | some _, none => { active := active, proc := proc, logs := [], advance := false }
    | some step0, some w =>
      let idx := proc.currentStep
      let t := step0.tankNumber
      let sp : DispensingStep × List OutputKey :=
        if step0.startWeight = 0 then
          ({ step0 with startWeight := w, status := StepStatus.Dispensing },
            set_output_drv drvFail m active t num true)
        else (step0, active)
      let step1 := sp.1
      let active1 := sp.2
      let dispensed := step1.startWeight - w
      let step2 := { step1 with dispensedWeight := max 0 dispensed }
      let target := step2.targetWeight
      let progress : ℚ := stepProgress dispensed target
      let log1 := update_dispensing_log num (idx + 1) step2.chemical target
        dispensed step2.status step2.tankName step2.tankContents t
      if 100 ≤ progress then
        let step3 := { step2 with status := StepStatus.Complete }
        let active2 := set_output_drv drvFail m active1 t num false
        let log2 := update_dispensing_log num (idx + 1) step3.chemical target
          dispensed StepStatus.Complete step3.tankName step3.tankContents t
        let steps1 := proc.steps.set idx step3
        match steps1[idx + 1]? with
        | some nxt =>
          let steps2 := steps1.set (idx + 1) { nxt with startWeight := 0 }
          let proc2 := { proc with steps := steps2, currentStep := idx + 1 }
          { active := active2, proc := proc2, logs := [log1, log2],
            advance := false }
        | none =>
          let proc2 := { proc with
            steps := steps1
            currentStep := idx + 1
            status := ProcStatus.Complete }
          { active := active2, proc := proc2, logs := [log1, log2],
            advance := true }
      else
        let proc2 := { proc with steps := proc.steps.set idx step2 }
        { active := active1, proc := proc2, logs := [log1], advance := false }

/-- The external inputs of one tick, for iterating proc_tick on a stirrer. -/
structure TickIn where
  m : GpioMap
  active : List OutputKey
  num : ℕ
  reading : Option ℚ

/-- Iterate proc_tick on one stirrer, tracking only the stirrer state. -/
def run_ticks (proc : StirrerProc) (ins : List TickIn) : StirrerProc :=
  ins.foldl (fun p i => (proc_tick i.m i.active i.num p i.reading).proc) proc

/-- Iterate proc_tick on one stirrer with a fixed map and stirrer number,
threading the asserted-output set through the ticks. -/
def run_pa (m : GpioMap) (num : ℕ) :
    List OutputKey × StirrerProc → List (Option ℚ) → List OutputKey × StirrerProc
  | pa, [] => pa
  | pa, rd :: rds =>
    let r := proc_tick m pa.1 num pa.2 rd
    run_pa m num (r.active, r.proc) rds

/-- Insert into a sorted list of stirrer numbers. -/
def insertSorted (n : ℕ) : List ℕ → List ℕ
  | [] => [n]
  | q :: rest => if n ≤ q then n :: q :: rest else q :: insertSorted n rest

/-- sorted(stirrer_processes.keys()) (gui.py:842). -/
def sortKeys (l : List ℕ) : List ℕ := l.foldr insertSorted []

/-- Dictionary assignment stirrer_processes[num] = proc. -/
def setProc : List (ℕ × StirrerProc) → ℕ → StirrerProc → List (ℕ × StirrerProc)
  | [], _, _ => []
  | (n, p) :: rest, q, newp =>
    if n = q then (n, newp) :: rest else (n, p) :: setProc rest q newp

/-- MainWindow.update_process (gui.py:833-958), one timer tick: pick the
currently polled stirrer in sorted key order, skip completed stirrers, and run
the per-stirrer body.  An empty process table or an index past the last
stirrer stops the process.  current_stirrer_index is modelled as always
present (the source lazily initialises it to 0 on the first tick). -/
def update_process (st : SysState) (reading : Option ℚ) : SysState × List LogEntry :=
  if st.stirrerProcesses.isEmpty then (stop_process st, [])
  else
    let keys := sortKeys (st.stirrerProcesses.map Prod.fst)
    match keys[st.currentStirrerIndex]? with
    | none => (stop_process st, [])
    | some num =>
      match lookupProc st.stirrerProcesses num with
      | none => (st, [])
      | some proc =>
        if proc.status = ProcStatus.Complete then
          ({ st with currentStirrerIndex := st.currentStirrerIndex + 1 }, [])
        else
          let r := proc_tick st.gpioMap st.activeOutputs num proc reading
          let idx' := if r.advance then st.currentStirrerIndex + 1
                      else st.currentStirrerIndex
          ({ st with
              activeOutputs := r.active,
              stirrerProcesses := setProc st.stirrerProcesses num r.proc,
              currentStirrerIndex := idx' },
            r.logs)

/-- One ingredient line of a saved product recipe. -/
structure Ingredient where
  raw_material : String
  percentage : ℚ
  tank : Option ℕ
  typeTag : String
deriving DecidableEq, Repr

/-- MainWindow.NUM_TANKS (gui.py:123). -/
def NUM_TANKS : ℕ := 25

/-- tanks_data.get(tank_key, default) (gui.py:631-632). -/
def tankInfo (tanks : ℕ → Option (String × String)) (t : ℕ) : String × String :=
  match tanks t with
  | some info => info
  | none => ("Tank " ++ toString t, "")

/-- The step-building loop of MainWindow.start_production (gui.py:620-645):
for each ingredient line, the tank number is the declared tank (defaulting to
line index + 1), the target is percentage / 100 times the batch amount, and a
step is emitted only when the target is positive.  No range check is applied
to the tank number. -/
def build_steps (tanks : ℕ → Option (String × String)) (recipe : List Ingredient)
    (total : ℚ) : List DispensingStep :=
  recipe.enum.filterMap fun p =>
    let tankNumber := p.2.tank.getD (p.1 + 1)
    let req := p.2.percentage / 100 * total
    if 0 < req then
      some
        { tankNumber := tankNumber,
          tankName := (tankInfo tanks tankNumber).1,
          tankContents := (tankInfo tanks tankNumber).2,
          chemical := p.2.raw_material,
          percentage := p.2.percentage,
          targetWeight := req,
          dispensedWeight := 0,
          startWeight := 0,
          status := StepStatus.Waiting }
    else none

/-- A small gpio map used in concrete instances. -/
def gmapA : GpioMap := [((1, 1), some 17), ((2, 1), some 4), ((2, 2), some 5)]

/-- A step that has not yet captured its baseline. -/
def stepW : DispensingStep :=
  { tankNumber := 1, tankName := "Tank 1", tankContents := "", chemical := "X",
    percentage := 50, targetWeight := 2, dispensedWeight := 0, startWeight := 0,
    status := StepStatus.Waiting }

/-- A step mid-dispense: baseline 10 kg, target 2 kg, 1.7 kg dispensed. -/
def stepD : DispensingStep :=
  { tankNumber := 2, tankName := "Tank 2", tankContents := "acid", chemical := "Y",
    percentage := 40, targetWeight := 2, dispensedWeight := 17 / 10,
    startWeight := 10, status := StepStatus.Dispensing }

/-- A one-step station with stepW. -/
def procW : StirrerProc :=
  { steps := [stepW], currentStep := 0, status := ProcStatus.Active }

/-- A one-step station with stepD. -/
def procD : StirrerProc :=
  { steps := [stepD], currentStep := 0, status := ProcStatus.Active }

/-- The step of the sequencer scenario of the spec: target 2 kg, waiting. -/
def stepScen : DispensingStep :=
  { tankNumber := 2, tankName := "Tank 2", tankContents := "", chemical := "Y",
    percentage := 40, targetWeight := 2, dispensedWeight := 0, startWeight := 0,
    status := StepStatus.Waiting }

/-- The one-step station of the sequencer scenario. -/
def procScen : StirrerProc :=
  { steps := [stepScen], currentStep := 0, status := ProcStatus.Active }

/-- A concrete running system state: stirrer 2 is mid-dispense from tank 2
with its output asserted. -/
def stDemo : SysState :=
  { stirrerProcesses := [(2, procD)], currentStirrerIndex := 0, gpioMap := gmapA,
    activeOutputs := [(2, 2)], pausedOutputs := [], serOpen := true,
    timerActive := true }

/-- A recipe whose single line references tank 99, outside 1..NUM_TANKS. -/
def recipeBad : List Ingredient :=
  [{ raw_material := "X", percentage := 50, tank := some 99, typeTag := "" }]

/-- An empty tank registry. -/
def tanksNone : ℕ → Option (String × String) := fun _ => none

end Stirrer

namespace Stirrer

/-! ### Helper lemmas about the output-set operations -/

theorem mem_setAdd {active : List OutputKey} {x k : OutputKey} :
    x ∈ setAdd active k ↔ x ∈ active ∨ x = k := by
  unfold setAdd
  split_ifs with h
  · constructor
    · exact Or.inl
    · rintro (hx | rfl)
      · exact hx
      · exact h
  · simp [List.mem_cons, or_comm]

theorem mem_setDiscard {active : List OutputKey} {x k : OutputKey} :
    x ∈ setDiscard active k ↔ x ∈ active ∧ x ≠ k := by
  simp [setDiscard]

theorem cleanup_gpio_subset_mem {m : GpioMap} {active : List OutputKey}
    {x : OutputKey} (h : x ∈ cleanup_gpio m active) : x ∈ active := by
  induction m generalizing active with
  | nil => simpa [cleanup_gpio] using h
  | cons kp rest ih =>
    unfold cleanup_gpio at h
    rw [List.foldl_cons] at h
    cases hp : kp.2 with
    | none =>
      rw [hp] at h
      exact ih h
    | some p =>
      rw [hp] at h
      exact (mem_setDiscard.mp (ih h)).1

theorem not_mem_cleanup {m : GpioMap} {x : OutputKey} {p : ℕ}
    (h : gpioGet m x = some p) (active : List OutputKey) :
    x ∉ cleanup_gpio m active := by
  induction m generalizing active with
  | nil => simp [gpioGet] at h
  | cons kp rest ih =>
    obtain ⟨k, pin⟩ := kp
    unfold gpioGet at h
    unfold cleanup_gpio
    rw [List.foldl_cons]
    by_cases hk : k = x
    · rw [if_pos hk] at h
      subst h
      subst hk
      intro hmem
      have hx : k ∈ setDiscard active k := cleanup_gpio_subset_mem hmem
      exact (mem_setDiscard.mp hx).2 rfl
    · rw [if_neg hk] at h
      cases pin with
      | none => exact ih h _
      | some q => exact ih h _

theorem cleanup_gpio_eq_nil {m : GpioMap} {active : List OutputKey}
    (hinv : ∀ k ∈ active, gpioGet m k ≠ none) :
    cleanup_gpio m active = [] := by
  cases hres : cleanup_gpio m active with
  | nil => rfl
  | cons y ys =>
    exfalso
    have hy : y ∈ cleanup_gpio m active := by
      rw [hres]
      exact List.mem_cons_self _ _
    have hya : y ∈ active := cleanup_gpio_subset_mem hy
    cases hg : gpioGet m y with
    | none => exact hinv y hya hg
    | some p => exact not_mem_cleanup hg _ hy

/-! ### Claim C1 -/

/-- Claim C1: MainWindow.stop_process deasserts every previously-asserted
output (active_outputs becomes empty, given the invariant that asserted keys
are pin-mapped, which set_output maintains), discards all per-station run
state, and closes the shared serial connection (and stops the timer). -/
theorem stop_process_safe (st : SysState)
    (hinv : ∀ k ∈ st.activeOutputs, gpioGet st.gpioMap k ≠ none) :
    (stop_process st).activeOutputs = [] ∧
    (stop_process st).stirrerProcesses = [] ∧
    (stop_process st).serOpen = false ∧
    (stop_process st).timerActive = false := by
  unfold stop_process
  exact ⟨cleanup_gpio_eq_nil hinv, rfl, rfl, rfl⟩

/-- Witness for C1 at a concrete running state. -/
theorem stop_process_safe_witness :
    (∀ k ∈ stDemo.activeOutputs, gpioGet stDemo.gpioMap k ≠ none) ∧
    ((stop_process stDemo).activeOutputs = [] ∧
     (stop_process stDemo).stirrerProcesses = [] ∧
     (stop_process stDemo).serOpen = false ∧
     (stop_process stDemo).timerActive = false) :=
  ⟨by decide, stop_process_safe stDemo (by decide)⟩

/-! ### Claim C9 -/

/-- Counterexample to C9 as stated: a recipe line referencing tank 99, far
outside the configured range 1..NUM_TANKS = 1..25, is silently accepted by
the step-building loop of start_production: the run is built with the
out-of-range tank number and no InvalidRecipe error exists in that path. -/
theorem out_of_range_tank_accepted_cex :
    (build_steps tanksNone recipeBad 100).map (fun s => s.tankNumber) = [99] ∧
    (build_steps tanksNone recipeBad 100).map (fun s => s.targetWeight) = [50] ∧
    NUM_TANKS < 99 := by
  refine ⟨?_, ?_, ?_⟩
  · norm_num [build_steps, recipeBad, tanksNone, tankInfo,
      List.filterMap_cons, List.filterMap_nil]
  · norm_num [build_steps, recipeBad, tanksNone, tankInfo,
      List.filterMap_cons, List.filterMap_nil]
  · norm_num [NUM_TANKS]

/-- Claim C9 amended: start_production applies no range validation at all to
tank references: every ingredient line with positive resolved target is
accepted into the step list with its declared tank number verbatim
(defaulting to line index + 1 when absent), even when outside 1..NUM_TANKS,
and no error is reported.  (Clamping of out-of-range tanks to 1 exists only
in the product-editor save and load paths, gui.py:1140-1142 and 1109-1113,
not in the production path.) -/
theorem build_steps_no_validation (tanks : ℕ → Option (String × String))
    (recipe : List Ingredient) (total : ℚ) :
    (build_steps tanks recipe total).map (fun s => s.tankNumber)
      = ((recipe.enum).filter
          (fun p => decide (0 < p.2.percentage / 100 * total))).map
          (fun p => p.2.tank.getD (p.1 + 1)) := by
  unfold build_steps
  generalize recipe.enum = l
  induction l with
  | nil => rfl
  | cons p ps ih =>
    rw [List.filterMap_cons, List.filter_cons]
    by_cases hp : 0 < p.2.percentage / 100 * total
    · simp only [hp, if_true, decide_true_eq_true, if_pos]
      simp [ih]
    · simp only [hp, if_false]
      simp [hp, ih]

/-! ### Claim C3 -/

/-- Counterexample to C3 as stated: on the tick that captures the baseline
(first successful reading 10 for a waiting step), the code continues into the
weight comparison: it computes the zero delta and a progress value from the
capture reading itself and emits a log record with those values on the very
same tick. -/
theorem baseline_tick_computes_progress_cex :
    (procW.steps[0]?).map (fun s => s.startWeight) = some 0 ∧
    (procW.steps[0]?).map (fun s => s.status) = some StepStatus.Waiting ∧
    (proc_tick gmapA [] 1 procW (some 10)).logs =
      [{ stirrer := 1, stepNum := 1, chemical := "X", target_weight_kg := 2,
         dispensed_weight_kg := 0, progress_percent := 0,
         status := StepStatus.Dispensing, source_tank := "Tank 1",
         tank_contents := "", tank_number := 1 }] ∧
    ((proc_tick gmapA [] 1 procW (some 10)).proc.steps[0]?).map
      (fun s => s.startWeight) = some 10 := by
  have h1 : roundTo 3 (2 : ℚ) = 2 := by norm_num [roundTo, pyRound]
  have h2 : roundTo 3 (0 : ℚ) = 0 := by norm_num [roundTo, pyRound]
  have h3 : roundTo 1 (0 : ℚ) = 0 := by norm_num [roundTo, pyRound]
  have h0 : stepProgress 0 2 = 0 := by norm_num [stepProgress]
  have h4 : ¬ ((100 : ℚ) ≤ 0) := by norm_num
  refine ⟨by simp [procW, stepW], by simp [procW, stepW], ?_, ?_⟩
  · simp [proc_tick, procW, stepW, gmapA, set_output, gpioGet, setAdd,
      update_dispensing_log, h0, h1, h2, h3, h4]
  · simp [proc_tick, procW, stepW, gmapA, set_output, gpioGet, setAdd,
      update_dispensing_log, h0, h1, h2, h3, h4]


/-! ### Invariant lemmas on the tick body -/

theorem proc_tick_currentStep_le (m : GpioMap) (a : List OutputKey) (num : ℕ)
    (proc : StirrerProc) (rd : Option ℚ) :
    proc.currentStep ≤ (proc_tick m a num proc rd).proc.currentStep := by
  unfold proc_tick
  split
  · exact le_refl _
  · split
    · exact le_refl _
    · exact le_refl _
    · dsimp only
      split
      all_goals split
      all_goals try split
      all_goals dsimp only
      all_goals omega

theorem proc_tick_steps_below (m : GpioMap) (a : List OutputKey) (num : ℕ)
    (proc : StirrerProc) (rd : Option ℚ) {j : ℕ} (hj : j < proc.currentStep) :
    (proc_tick m a num proc rd).proc.steps[j]? = proc.steps[j]? := by
  have h1 : proc.currentStep ≠ j := by omega
  have h2 : proc.currentStep + 1 ≠ j := by omega
  unfold proc_tick
  split
  · rfl
  · split
    · rfl
    · rfl
    · dsimp only
      split
      all_goals split
      all_goals try split
      all_goals simp [List.getElem?_set, h1, h2]

theorem proc_tick_start_preserved (m : GpioMap) (a : List OutputKey) (num : ℕ)
    (proc : StirrerProc) (rd : Option ℚ) {j : ℕ} {v : ℚ}
    (hj : j ≤ proc.currentStep)
    (hs : (proc.steps[j]?).map (fun s => s.startWeight) = some v)
    (h0 : v ≠ 0) :
    ((proc_tick m a num proc rd).proc.steps[j]?).map (fun s => s.startWeight)
        = some v ∧
    j ≤ (proc_tick m a num proc rd).proc.currentStep := by
  obtain ⟨s, hsome, hv⟩ : ∃ s, proc.steps[j]? = some s ∧ s.startWeight = v := by
    cases hq : proc.steps[j]? with
    | none =>
      rw [hq] at hs
      simp at hs
    | some s =>
      rw [hq] at hs
      simp at hs
      exact ⟨s, rfl, hs⟩
  rcases Nat.lt_or_ge j proc.currentStep with hlt | hge
  · constructor
    · rw [proc_tick_steps_below m a num proc rd hlt, hsome]
      simp [hv]
    · exact le_trans (le_of_lt hlt) (proc_tick_currentStep_le m a num proc rd)
  · have heq : j = proc.currentStep := le_antisymm hj hge
    subst heq
    subst hv
    have hlen : proc.currentStep < proc.steps.length :=
      (List.getElem?_eq_some.mp hsome).1
    have hne : proc.currentStep + 1 ≠ proc.currentStep := by omega
    unfold proc_tick
    rw [if_neg (by omega), hsome]
    cases rd with
    | none =>
      dsimp only
      rw [hsome]
      exact ⟨rfl, le_refl _⟩
    | some w =>
      dsimp only
      rw [if_neg h0]
      dsimp only
      split
      · split
        next nxt heq2 =>
          constructor
          · simp [List.getElem?_set, hne, hlen]
          · dsimp only
            omega
        next heq2 =>
          constructor
          · simp [List.getElem?_set, hlen]
          · dsimp only
            omega
      · constructor
        · simp [List.getElem?_set, hlen]
        · dsimp only
          omega

theorem run_ticks_nil (proc : StirrerProc) : run_ticks proc [] = proc := rfl

theorem run_ticks_cons (proc : StirrerProc) (i : TickIn) (ins : List TickIn) :
    run_ticks proc (i :: ins) =
      run_ticks (proc_tick i.m i.active i.num proc i.reading).proc ins := rfl

theorem run_ticks_steps_below (ins : List TickIn) (proc : StirrerProc) {j : ℕ}
    (hj : j < proc.currentStep) :
    (run_ticks proc ins).steps[j]? = proc.steps[j]? := by
  induction ins generalizing proc with
  | nil => rfl
  | cons i ins ih =>
    rw [run_ticks_cons]
    have h2 : j < (proc_tick i.m i.active i.num proc i.reading).proc.currentStep :=
      lt_of_lt_of_le hj (proc_tick_currentStep_le i.m i.active i.num proc i.reading)
    rw [ih _ h2, proc_tick_steps_below i.m i.active i.num proc i.reading hj]

theorem run_ticks_start_preserved (ins : List TickIn) (proc : StirrerProc)
    {j : ℕ} {v : ℚ} (hj : j ≤ proc.currentStep)
    (hs : (proc.steps[j]?).map (fun s => s.startWeight) = some v)
    (h0 : v ≠ 0) :
    ((run_ticks proc ins).steps[j]?).map (fun s => s.startWeight) = some v := by
  induction ins generalizing proc with
  | nil => exact hs
  | cons i ins ih =>
    obtain ⟨h1, h2⟩ :=
      proc_tick_start_preserved i.m i.active i.num proc i.reading hj hs h0
    rw [run_ticks_cons]
    exact ih _ h2 h1

/-! ### Claim C5 -/

/-- Claim C5: a tick on which the weight channel yields no reading (no bytes,
a closed port, or an unparseable frame all make read_weight return none) is a
complete no-op for the active step and the outputs: the whole tick result
keeps the output set, the station state (hence every step field), writes no
log, and does not advance; iterating any number of such ticks changes
nothing. -/
theorem no_reading_noop (m : GpioMap) (a : List OutputKey) (num : ℕ)
    (proc : StirrerProc) (hidx : proc.currentStep < proc.steps.length) :
    (∀ so, read_weight so SerialResp.noBytes = none) ∧
    (∀ so, read_weight so (SerialResp.frame none) = none) ∧
    proc_tick m a num proc none =
      { active := a, proc := proc, logs := [], advance := false } ∧
    ∀ n : ℕ, run_ticks proc
      (List.replicate n { m := m, active := a, num := num, reading := none })
        = proc := by
  have htick : proc_tick m a num proc none =
      { active := a, proc := proc, logs := [], advance := false } := by
    unfold proc_tick
    rw [if_neg (by omega)]
    cases h : proc.steps[proc.currentStep]? <;> rfl
  have hp : (proc_tick m a num proc none).proc = proc := by rw [htick]
  refine ⟨?_, ?_, htick, ?_⟩
  · intro so
    cases so <;> rfl
  · intro so
    cases so <;> rfl
  · intro n
    induction n with
    | zero => rfl
    | succ k ihn =>
      rw [List.replicate_succ, run_ticks_cons]
      dsimp only
      rw [hp, ihn]

/-- Witness for C5: a no-reading tick (and five of them) on a concrete
waiting station with one step. -/
theorem no_reading_noop_witness :
    procW.currentStep < procW.steps.length ∧
    ((∀ so, read_weight so SerialResp.noBytes = none) ∧
     (∀ so, read_weight so (SerialResp.frame none) = none) ∧
     proc_tick gmapA [] 1 procW none =
       { active := [], proc := procW, logs := [], advance := false } ∧
     ∀ n : ℕ, run_ticks procW
       (List.replicate n { m := gmapA, active := [], num := 1, reading := none })
         = procW) :=
  ⟨by decide, no_reading_noop gmapA [] 1 procW (by decide)⟩

/-! ### Claim C6 -/

/-- Claim C6: the stored dispensed weight is never negative.  Steps are built
with dispensed weight 0, and on every tick each stored dispensed weight is
either untouched or assigned max 0 (baseline - reading), so nonnegativity is
preserved; sensor drift above the baseline can never store a negative
amount. -/
theorem dispensed_nonneg (m : GpioMap) (a : List OutputKey) (num : ℕ)
    (proc : StirrerProc) (rd : Option ℚ)
    (tanks : ℕ → Option (String × String)) (recipe : List Ingredient) (total : ℚ)
    (h : ∀ s ∈ proc.steps, 0 ≤ s.dispensedWeight) :
    (∀ s ∈ (proc_tick m a num proc rd).proc.steps, 0 ≤ s.dispensedWeight) ∧
    (∀ s ∈ build_steps tanks recipe total, s.dispensedWeight = 0) := by
  constructor
  · unfold proc_tick
    split
    · exact h
    · split
      · exact h
      · exact h
      · dsimp only
        split
        · split
          · split
            next nxt heq =>
              dsimp only
              intro s hmem
              rcases List.mem_or_eq_of_mem_set hmem with hmem1 | rfl
              · rcases List.mem_or_eq_of_mem_set hmem1 with hmem2 | rfl
                · exact h s hmem2
                · exact le_max_left _ _
              · have hnxt := List.getElem?_mem heq
                rcases List.mem_or_eq_of_mem_set hnxt with hmem2 | rfl
                · exact h nxt hmem2
                · exact le_max_left _ _
            next heq =>
              dsimp only
              intro s hmem
              rcases List.mem_or_eq_of_mem_set hmem with hmem2 | rfl
              · exact h s hmem2
              · exact le_max_left _ _
          · dsimp only
            intro s hmem
            rcases List.mem_or_eq_of_mem_set hmem with hmem2 | rfl
            · exact h s hmem2
            · exact le_max_left _ _
        · split
          · split
            next nxt heq =>
              dsimp only
              intro s hmem
              rcases List.mem_or_eq_of_mem_set hmem with hmem1 | rfl
              · rcases List.mem_or_eq_of_mem_set hmem1 with hmem2 | rfl
                · exact h s hmem2
                · exact le_max_left _ _
              · have hnxt := List.getElem?_mem heq
                rcases List.mem_or_eq_of_mem_set hnxt with hmem2 | rfl
                · exact h nxt hmem2
                · exact le_max_left _ _
            next heq =>
              dsimp only
              intro s hmem
              rcases List.mem_or_eq_of_mem_set hmem with hmem2 | rfl
              · exact h s hmem2
              · exact le_max_left _ _
          · dsimp only
            intro s hmem
            rcases List.mem_or_eq_of_mem_set hmem with hmem2 | rfl
            · exact h s hmem2
            · exact le_max_left _ _
  · intro s hmem
    unfold build_steps at hmem
    rw [List.mem_filterMap] at hmem
    obtain ⟨p, hp, hfp⟩ := hmem
    dsimp only at hfp
    split at hfp
    · simp only [Option.some.injEq] at hfp
      subst hfp
      rfl
    · simp at hfp

/-- Witness for C6 at a concrete mid-dispense station. -/
theorem dispensed_nonneg_witness :
    (∀ s ∈ procD.steps, 0 ≤ s.dispensedWeight) ∧
    ((∀ s ∈ (proc_tick gmapA [] 1 procD (some 5)).proc.steps,
        0 ≤ s.dispensedWeight) ∧
     (∀ s ∈ build_steps tanksNone recipeBad 100, s.dispensedWeight = 0)) :=
  ⟨by intro s hs; simp [procD, stepD] at hs; subst hs; norm_num [stepD],
   dispensed_nonneg gmapA [] 1 procD (some 5) tanksNone recipeBad 100
     (by intro s hs; simp [procD, stepD] at hs; subst hs; norm_num [stepD])⟩


/-! ### Rounding lemmas -/

theorem pyRound_neg {x : ℚ} (h : x < -(1 / 2)) : pyRound x < 0 := by
  have hf : (⌊x⌋ : ℚ) ≤ x := Int.floor_le x
  unfold pyRound
  split_ifs with h1 h2 h3
  · have hq : (⌊x⌋ : ℚ) < 0 := lt_of_le_of_lt hf (by linarith)
    exact_mod_cast hq
  · have hq : (⌊x⌋ : ℚ) < -1 := by linarith
    have hz : ⌊x⌋ < -1 := by exact_mod_cast hq
    omega
  · have h12 : x - ⌊x⌋ = 1 / 2 := le_antisymm (not_lt.mp h2) (not_lt.mp h1)
    have hq : (⌊x⌋ : ℚ) < -1 := by linarith
    have hz : ⌊x⌋ < -1 := by exact_mod_cast hq
    omega
  · have h12 : x - ⌊x⌋ = 1 / 2 := le_antisymm (not_lt.mp h2) (not_lt.mp h1)
    have hq : (⌊x⌋ : ℚ) < -1 := by linarith
    have hz : ⌊x⌋ < -1 := by exact_mod_cast hq
    omega

theorem roundTo_neg {nd : ℕ} {x : ℚ} (h : x * 10 ^ nd < -(1 / 2)) :
    roundTo nd x < 0 := by
  unfold roundTo
  apply div_neg_of_neg_of_pos
  · have hq := pyRound_neg h
    exact_mod_cast hq
  · positivity

/-! ### Unfolding lemmas for the two dispensing-tick shapes -/

theorem proc_tick_capture_eq (m : GpioMap) (a : List OutputKey) (num : ℕ)
    (proc : StirrerProc) (step : DispensingStep) (w : ℚ)
    (hidx : proc.steps[proc.currentStep]? = some step)
    (h0 : step.startWeight = 0)
    (ht : 0 < step.targetWeight) :
    proc_tick m a num proc (some w) =
      { active := set_output m a step.tankNumber num true
        proc := { proc with
          steps := proc.steps.set proc.currentStep { step with
            startWeight := w
            status := StepStatus.Dispensing
            dispensedWeight := max 0 (w - w) } }
        logs := [update_dispensing_log num (proc.currentStep + 1) step.chemical
          step.targetWeight (w - w) StepStatus.Dispensing step.tankName
          step.tankContents step.tankNumber]
        advance := false } := by
  have hlen : proc.currentStep < proc.steps.length :=
    (List.getElem?_eq_some.mp hidx).1
  have hprog : ¬ (100 : ℚ) ≤ stepProgress (w - w) step.targetWeight := by
    rw [sub_self]
    unfold stepProgress
    rw [if_pos ht]
    norm_num
  unfold proc_tick
  rw [if_neg (by omega), hidx]
  dsimp only
  rw [if_pos h0]
  dsimp only
  rw [if_neg hprog]

theorem proc_tick_dispense_eq (m : GpioMap) (a : List OutputKey) (num : ℕ)
    (proc : StirrerProc) (step : DispensingStep) (w : ℚ)
    (hidx : proc.steps[proc.currentStep]? = some step)
    (hb : step.startWeight ≠ 0)
    (hprog : ¬ (100 : ℚ) ≤ stepProgress (step.startWeight - w) step.targetWeight) :
    proc_tick m a num proc (some w) =
      { active := a
        proc := { proc with
          steps := proc.steps.set proc.currentStep { step with
            dispensedWeight := max 0 (step.startWeight - w) } }
        logs := [update_dispensing_log num (proc.currentStep + 1) step.chemical
          step.targetWeight (step.startWeight - w) step.status step.tankName
          step.tankContents step.tankNumber]
        advance := false } := by
  have hlen : proc.currentStep < proc.steps.length :=
    (List.getElem?_eq_some.mp hidx).1
  unfold proc_tick
  rw [if_neg (by omega), hidx]
  dsimp only
  rw [if_neg hb]
  dsimp only
  rw [if_neg hprog]

/-! ### Claim C3, amended -/

/-- Claim C3 amended: on the tick that captures the baseline (step with
start weight 0 and positive target, successful reading w), the code continues
into the comparison on the very same tick: it computes the spurious zero
delta, stores dispensed weight max 0 (w - w) = 0, and writes one log record
carrying that zero delta; this is harmless because the zero delta cannot
reach the target, so the step ends the capture tick in Dispensing with the
output asserted, and its index does not advance. -/
theorem baseline_tick_progress_amended (m : GpioMap) (a : List OutputKey)
    (num : ℕ) (proc : StirrerProc) (step : DispensingStep) (w : ℚ)
    (hidx : proc.steps[proc.currentStep]? = some step)
    (h0 : step.startWeight = 0)
    (ht : 0 < step.targetWeight) :
    (proc_tick m a num proc (some w)).proc.steps[proc.currentStep]? =
      some { step with
        startWeight := w
        status := StepStatus.Dispensing
        dispensedWeight := 0 } ∧
    (proc_tick m a num proc (some w)).proc.currentStep = proc.currentStep ∧
    (proc_tick m a num proc (some w)).logs =
      [update_dispensing_log num (proc.currentStep + 1) step.chemical
        step.targetWeight 0 StepStatus.Dispensing step.tankName
        step.tankContents step.tankNumber] ∧
    (proc_tick m a num proc (some w)).active =
      set_output m a step.tankNumber num true ∧
    (proc_tick m a num proc (some w)).advance = false := by
  have hlen : proc.currentStep < proc.steps.length :=
    (List.getElem?_eq_some.mp hidx).1
  have hmain := proc_tick_capture_eq m a num proc step w hidx h0 ht
  refine ⟨?_, ?_, ?_, ?_, ?_⟩
  · rw [hmain]
    simp [List.getElem?_set, hlen]
  · rw [hmain]
  · rw [hmain, sub_self]
  · rw [hmain]
  · rw [hmain]

/-- Witness for the amended C3: capture tick with reading 10 on a concrete
waiting step. -/
theorem baseline_tick_progress_amended_witness :
    (procW.steps[procW.currentStep]? = some stepW) ∧
    (stepW.startWeight = 0) ∧
    (0 < stepW.targetWeight) ∧
    ((proc_tick gmapA [] 1 procW (some 10)).proc.steps[procW.currentStep]? =
       some { stepW with
         startWeight := 10
         status := StepStatus.Dispensing
         dispensedWeight := 0 } ∧
     (proc_tick gmapA [] 1 procW (some 10)).proc.currentStep = procW.currentStep ∧
     (proc_tick gmapA [] 1 procW (some 10)).logs =
       [update_dispensing_log 1 (procW.currentStep + 1) stepW.chemical
         stepW.targetWeight 0 StepStatus.Dispensing stepW.tankName
         stepW.tankContents stepW.tankNumber] ∧
     (proc_tick gmapA [] 1 procW (some 10)).active =
       set_output gmapA [] stepW.tankNumber 1 true ∧
     (proc_tick gmapA [] 1 procW (some 10)).advance = false) :=
  ⟨rfl, rfl, by simp [stepW],
   baseline_tick_progress_amended gmapA [] 1 procW stepW 10 rfl rfl (by simp [stepW])⟩

/-! ### Claim C4 -/

/-- Counterexample to C4 as stated: when the first successful reading is 0.0,
the step transitions Waiting to Dispensing with baseline 0, but the baseline
is not immutable afterwards: because start_weight keeps the sentinel value 0,
the capture branch fires again on the next successful reading (here 5), and
the stored baseline changes from 0 to 5 while the step is active. -/
theorem baseline_recapture_on_zero_cex :
    (((proc_tick gmapA [] 1 procW (some 0)).proc.steps[0]?).map
        (fun s => s.status)) = some StepStatus.Dispensing ∧
    (((proc_tick gmapA [] 1 procW (some 0)).proc.steps[0]?).map
        (fun s => s.startWeight)) = some 0 ∧
    (((proc_tick gmapA [] 1
        (proc_tick gmapA [] 1 procW (some 0)).proc (some 5)).proc.steps[0]?).map
        (fun s => s.startWeight)) = some 5 := by
  have hsp : stepProgress 0 2 = 0 := by norm_num [stepProgress]
  have hc : ¬ ((100 : ℚ) ≤ 0) := by norm_num
  refine ⟨?_, ?_, ?_⟩ <;>
    simp [proc_tick, procW, stepW, gmapA, set_output, gpioGet, setAdd,
      stepProgress, hc]

/-- Claim C4 amended: the baseline is captured by the first successful
reading and the capture transition (Waiting to Dispensing, output asserted)
happens on that tick; the baseline is then immutable over every later tick
provided the captured reading is nonzero.  (A 0.0 capture reading leaves the
start weight at the sentinel 0, so capture re-fires on the next successful
reading; see the counterexample.) -/
theorem baseline_capture_immutable_amended (m : GpioMap) (a : List OutputKey)
    (num : ℕ) (proc : StirrerProc) (step : DispensingStep) (w : ℚ)
    (hidx : proc.steps[proc.currentStep]? = some step)
    (h0 : step.startWeight = 0)
    (hw : w ≠ 0)
    (ht : 0 < step.targetWeight) :
    (((proc_tick m a num proc (some w)).proc.steps[proc.currentStep]?).map
        (fun s => s.startWeight)) = some w ∧
    (((proc_tick m a num proc (some w)).proc.steps[proc.currentStep]?).map
        (fun s => s.status)) = some StepStatus.Dispensing ∧
    (proc_tick m a num proc (some w)).proc.currentStep = proc.currentStep ∧
    (proc_tick m a num proc (some w)).active =
      set_output m a step.tankNumber num true ∧
    ∀ ins : List TickIn,
      (((run_ticks (proc_tick m a num proc (some w)).proc ins).steps[proc.currentStep]?).map
        (fun s => s.startWeight)) = some w := by
  have hlen : proc.currentStep < proc.steps.length :=
    (List.getElem?_eq_some.mp hidx).1
  have hmain := proc_tick_capture_eq m a num proc step w hidx h0 ht
  have h1 : (((proc_tick m a num proc (some w)).proc.steps[proc.currentStep]?).map
      (fun s => s.startWeight)) = some w := by
    rw [hmain]
    simp [List.getElem?_set, hlen]
  have hcur : (proc_tick m a num proc (some w)).proc.currentStep
      = proc.currentStep := by
    rw [hmain]
  refine ⟨h1, ?_, hcur, ?_, ?_⟩
  · rw [hmain]
    simp [List.getElem?_set, hlen]
  · rw [hmain]
  · intro ins
    exact run_ticks_start_preserved ins _ (le_of_eq hcur.symm) h1 hw

/-- Witness for the amended C4: capture of a nonzero baseline (10) followed
by an arbitrary tick list keeps the baseline. -/
theorem baseline_capture_immutable_amended_witness :
    (procW.steps[procW.currentStep]? = some stepW) ∧
    (stepW.startWeight = 0) ∧
    ((10 : ℚ) ≠ 0) ∧
    (0 < stepW.targetWeight) ∧
    ((((proc_tick gmapA [] 1 procW (some 10)).proc.steps[procW.currentStep]?).map
        (fun s => s.startWeight)) = some 10 ∧
     (((proc_tick gmapA [] 1 procW (some 10)).proc.steps[procW.currentStep]?).map
        (fun s => s.status)) = some StepStatus.Dispensing ∧
     (proc_tick gmapA [] 1 procW (some 10)).proc.currentStep = procW.currentStep ∧
     (proc_tick gmapA [] 1 procW (some 10)).active =
       set_output gmapA [] stepW.tankNumber 1 true ∧
     ∀ ins : List TickIn,
       (((run_ticks (proc_tick gmapA [] 1 procW (some 10)).proc ins).steps[procW.currentStep]?).map
         (fun s => s.startWeight)) = some 10) :=
  ⟨rfl, rfl, by norm_num, by simp [stepW],
   baseline_capture_immutable_amended gmapA [] 1 procW stepW 10 rfl rfl
     (by norm_num) (by simp [stepW])⟩


/-! ### Claim C2 -/

/-- Claim C2: a Dispensing step (captured nonzero baseline, positive target,
mapped output) completes on exactly the tick whose reading makes the delta
baseline - reading reach the target (equivalently the progress expression
reaches 100).  On that tick the mapped output is deasserted (exactly one
discard of its key), the step index advances, the stored dispensed value is
frozen at the final delta and no later tick ever changes the completed step
record, and exactly two log writes are issued, the last with status
Complete.  Below the target the tick changes no output and does not
advance. -/
theorem dispensing_completion_spec (m : GpioMap) (a : List OutputKey) (num : ℕ)
    (proc : StirrerProc) (step : DispensingStep) (w : ℚ)
    (hidx : proc.steps[proc.currentStep]? = some step)
    (hs : step.status = StepStatus.Dispensing)
    (hb : step.startWeight ≠ 0)
    (ht : 0 < step.targetWeight)
    (hm : gpioGet m (step.tankNumber, num) ≠ none) :
    ((100 : ℚ) ≤ stepProgress (step.startWeight - w) step.targetWeight
        ↔ step.targetWeight ≤ step.startWeight - w) ∧
    (((proc_tick m a num proc (some w)).proc.steps[proc.currentStep]?).map
        (fun s => s.status)
      = some (if step.targetWeight ≤ step.startWeight - w then StepStatus.Complete
              else StepStatus.Dispensing)) ∧
    (step.targetWeight ≤ step.startWeight - w →
      (proc_tick m a num proc (some w)).active
          = setDiscard a (step.tankNumber, num) ∧
      (proc_tick m a num proc (some w)).proc.currentStep = proc.currentStep + 1 ∧
      (((proc_tick m a num proc (some w)).proc.steps[proc.currentStep]?).map
          (fun s => s.dispensedWeight)) = some (step.startWeight - w) ∧
      (proc_tick m a num proc (some w)).logs =
        [update_dispensing_log num (proc.currentStep + 1) step.chemical
           step.targetWeight (step.startWeight - w) StepStatus.Dispensing
           step.tankName step.tankContents step.tankNumber,
         update_dispensing_log num (proc.currentStep + 1) step.chemical
           step.targetWeight (step.startWeight - w) StepStatus.Complete
           step.tankName step.tankContents step.tankNumber] ∧
      ∀ ins : List TickIn,
        (run_ticks (proc_tick m a num proc (some w)).proc ins).steps[proc.currentStep]?
          = (proc_tick m a num proc (some w)).proc.steps[proc.currentStep]?) ∧
    (¬ step.targetWeight ≤ step.startWeight - w →
      (proc_tick m a num proc (some w)).active = a ∧
      (proc_tick m a num proc (some w)).proc.currentStep = proc.currentStep ∧
      (proc_tick m a num proc (some w)).logs.length = 1) := by
  have hlen : proc.currentStep < proc.steps.length :=
    (List.getElem?_eq_some.mp hidx).1
  have hne : proc.currentStep + 1 ≠ proc.currentStep := by omega
  have hiff : (100 : ℚ) ≤ stepProgress (step.startWeight - w) step.targetWeight
      ↔ step.targetWeight ≤ step.startWeight - w := by
    unfold stepProgress
    rw [if_pos ht, le_min_iff]
    constructor
    · rintro ⟨-, h2⟩
      rw [div_mul_eq_mul_div, le_div_iff₀ ht] at h2
      nlinarith
    · intro h2
      refine ⟨le_refl _, ?_⟩
      rw [div_mul_eq_mul_div, le_div_iff₀ ht]
      nlinarith
  by_cases hc : step.targetWeight ≤ step.startWeight - w
  · have hprog : (100 : ℚ) ≤ stepProgress (step.startWeight - w) step.targetWeight :=
      hiff.mpr hc
    have hd0 : (0 : ℚ) ≤ step.startWeight - w := le_trans (le_of_lt ht) hc
    refine ⟨hiff, ?_, ?_, fun hcc => absurd hc hcc⟩
    · unfold proc_tick
      rw [if_neg (by omega), hidx]
      dsimp only
      rw [if_neg hb]
      try dsimp only
      rw [if_pos hprog]
      try dsimp only
      split
      next nxt heq2 =>
        rw [if_pos hc]
        simp [List.getElem?_set, hne, hlen]
      next heq2 =>
        rw [if_pos hc]
        simp [List.getElem?_set, hlen]
    · intro hcc
      unfold proc_tick
      rw [if_neg (by omega), hidx]
      dsimp only
      rw [if_neg hb]
      try dsimp only
      rw [if_pos hprog]
      try dsimp only
      split
      next nxt heq2 =>
        refine ⟨?_, rfl, ?_, ?_, ?_⟩
        · cases hg : gpioGet m (step.tankNumber, num) with
          | none => exact absurd hg hm
          | some p => simp [set_output, hg]
        · simp [List.getElem?_set, hne, hlen, max_eq_right hd0]
        · rw [hs]
        · intro ins
          exact run_ticks_steps_below ins _ (by dsimp only; omega)
      next heq2 =>
        refine ⟨?_, rfl, ?_, ?_, ?_⟩
        · cases hg : gpioGet m (step.tankNumber, num) with
          | none => exact absurd hg hm
          | some p => simp [set_output, hg]
        · simp [List.getElem?_set, hne, hlen, max_eq_right hd0]
        · rw [hs]
        · intro ins
          exact run_ticks_steps_below ins _ (by dsimp only; omega)
  · have hprogneg :
        ¬ (100 : ℚ) ≤ stepProgress (step.startWeight - w) step.targetWeight :=
      fun hcon => hc (hiff.mp hcon)
    have hmain := proc_tick_dispense_eq m a num proc step w hidx hb hprogneg
    refine ⟨hiff, ?_, ?_, ?_⟩
    · rw [hmain, if_neg hc]
      simp [List.getElem?_set, hlen, hs]
    · intro hcc
      exact absurd hcc hc
    · intro hcc
      refine ⟨?_, ?_, ?_⟩
      · rw [hmain]
      · rw [hmain]
      · rw [hmain]
        rfl

/-- Witness for C2: the final tick of the spec scenario (baseline 10, target
2, reading 7.9, delta 2.1 at least 2). -/
theorem dispensing_completion_spec_witness :
    (procD.steps[procD.currentStep]? = some stepD) ∧
    (stepD.status = StepStatus.Dispensing) ∧
    (stepD.startWeight ≠ 0) ∧
    (0 < stepD.targetWeight) ∧
    (gpioGet gmapA (stepD.tankNumber, 1) ≠ none) ∧
    (((100 : ℚ) ≤ stepProgress (stepD.startWeight - 79 / 10) stepD.targetWeight
        ↔ stepD.targetWeight ≤ stepD.startWeight - 79 / 10) ∧
     (((proc_tick gmapA [(2, 1)] 1 procD (some (79 / 10))).proc.steps[procD.currentStep]?).map
         (fun s => s.status)
       = some (if stepD.targetWeight ≤ stepD.startWeight - 79 / 10
               then StepStatus.Complete else StepStatus.Dispensing)) ∧
     (stepD.targetWeight ≤ stepD.startWeight - 79 / 10 →
       (proc_tick gmapA [(2, 1)] 1 procD (some (79 / 10))).active
           = setDiscard [(2, 1)] (stepD.tankNumber, 1) ∧
       (proc_tick gmapA [(2, 1)] 1 procD (some (79 / 10))).proc.currentStep
           = procD.currentStep + 1 ∧
       (((proc_tick gmapA [(2, 1)] 1 procD (some (79 / 10))).proc.steps[procD.currentStep]?).map
           (fun s => s.dispensedWeight)) = some (stepD.startWeight - 79 / 10) ∧
       (proc_tick gmapA [(2, 1)] 1 procD (some (79 / 10))).logs =
         [update_dispensing_log 1 (procD.currentStep + 1) stepD.chemical
            stepD.targetWeight (stepD.startWeight - 79 / 10) StepStatus.Dispensing
            stepD.tankName stepD.tankContents stepD.tankNumber,
          update_dispensing_log 1 (procD.currentStep + 1) stepD.chemical
            stepD.targetWeight (stepD.startWeight - 79 / 10) StepStatus.Complete
            stepD.tankName stepD.tankContents stepD.tankNumber] ∧
       ∀ ins : List TickIn,
         (run_ticks (proc_tick gmapA [(2, 1)] 1 procD (some (79 / 10))).proc ins).steps[procD.currentStep]?
           = (proc_tick gmapA [(2, 1)] 1 procD (some (79 / 10))).proc.steps[procD.currentStep]?) ∧
     (¬ stepD.targetWeight ≤ stepD.startWeight - 79 / 10 →
       (proc_tick gmapA [(2, 1)] 1 procD (some (79 / 10))).active = [(2, 1)] ∧
       (proc_tick gmapA [(2, 1)] 1 procD (some (79 / 10))).proc.currentStep
           = procD.currentStep ∧
       (proc_tick gmapA [(2, 1)] 1 procD (some (79 / 10))).logs.length = 1)) :=
  ⟨rfl, rfl, by simp [stepD], by simp [stepD], by decide,
   dispensing_completion_spec gmapA [(2, 1)] 1 procD stepD (79 / 10) rfl rfl
     (by simp [stepD]) (by simp [stepD]) (by decide)⟩


/-! ### Claim C7 -/

theorem mem_deassert_outputs (m : GpioMap) (keys : List OutputKey)
    (active : List OutputKey) (x : OutputKey) :
    x ∈ deassert_outputs m keys active ↔
      x ∈ active ∧ (gpioGet m x = none ∨ x ∉ keys) := by
  induction keys generalizing active with
  | nil => simp [deassert_outputs]
  | cons k ks ih =>
    have hstep : deassert_outputs m (k :: ks) active
        = deassert_outputs m ks (set_output m active k.1 k.2 false) := rfl
    rw [hstep, ih]
    unfold set_output
    simp only [Prod.mk.eta]
    by_cases hxk : x = k
    · subst hxk
      cases hg : gpioGet m x <;>
        simp [hg, mem_setDiscard, mem_setAdd, List.mem_cons]
    · cases hg : gpioGet m k <;>
        simp [hg, mem_setDiscard, mem_setAdd, List.mem_cons, hxk]

theorem mem_resume_outputs (m : GpioMap) (procs : List (ℕ × StirrerProc))
    (keys : List OutputKey) (active : List OutputKey) (x : OutputKey) :
    x ∈ resume_outputs m procs keys active ↔
      x ∈ active ∨ (x ∈ keys ∧ stillDispensing procs x = true ∧
        gpioGet m x ≠ none) := by
  induction keys generalizing active with
  | nil => simp [resume_outputs]
  | cons k ks ih =>
    have hstep : resume_outputs m procs (k :: ks) active
        = resume_outputs m procs ks
            (if stillDispensing procs k then set_output m active k.1 k.2 true
             else active) := rfl
    rw [hstep, ih]
    by_cases hsd : stillDispensing procs k = true
    · rw [if_pos hsd]
      unfold set_output
      simp only [Prod.mk.eta]
      by_cases hxk : x = k
      · subst hxk
        cases hg : gpioGet m x <;>
          simp [hg, mem_setAdd, mem_setDiscard, List.mem_cons, hsd]
      · cases hg : gpioGet m k <;>
          simp [hg, mem_setAdd, mem_setDiscard, List.mem_cons, hxk]
    · rw [if_neg hsd]
      have hsd2 : stillDispensing procs k = false := by
        revert hsd
        cases stillDispensing procs k <;> simp
      by_cases hxk : x = k
      · subst hxk
        simp [List.mem_cons, hsd2]
      · simp [List.mem_cons, hxk]

/-- Claim C7: with the timer running (so toggle_pause pauses) and the
invariant that asserted keys are pin-mapped, pausing stops the timer,
records exactly the currently-asserted outputs in paused_outputs, and
deasserts all of them; toggling again (resume) restarts the timer, clears
paused_outputs, and the asserted set afterwards consists of exactly those
previously-paused keys whose owning stirrer run still has its current step
on that tank in status Dispensing at resume time. -/
theorem pause_resume_spec (st : SysState)
    (hT : st.timerActive = true)
    (hinv : ∀ k ∈ st.activeOutputs, gpioGet st.gpioMap k ≠ none) :
    (toggle_pause st).timerActive = false ∧
    (toggle_pause st).pausedOutputs = st.activeOutputs ∧
    (toggle_pause st).activeOutputs = [] ∧
    (toggle_pause (toggle_pause st)).timerActive = true ∧
    (toggle_pause (toggle_pause st)).pausedOutputs = [] ∧
    (∀ x, x ∈ (toggle_pause (toggle_pause st)).activeOutputs ↔
       (x ∈ st.activeOutputs ∧ stillDispensing st.stirrerProcesses x = true)) := by
  have hempty : deassert_outputs st.gpioMap st.activeOutputs st.activeOutputs
      = [] := by
    rw [List.eq_nil_iff_forall_not_mem]
    intro y hy
    rw [mem_deassert_outputs] at hy
    rcases hy with ⟨hy1, hy2 | hy3⟩
    · exact hinv y hy1 hy2
    · exact hy3 hy1
  have hpause : toggle_pause st =
      { st with
        timerActive := false
        pausedOutputs := st.activeOutputs
        activeOutputs := [] } := by
    unfold toggle_pause
    rw [if_pos hT, hempty]
  have hresume : toggle_pause (toggle_pause st) =
      { st with
        timerActive := true
        pausedOutputs := []
        activeOutputs :=
          resume_outputs st.gpioMap st.stirrerProcesses st.activeOutputs [] } := by
    rw [hpause]
    unfold toggle_pause
    rw [if_neg (by simp)]
  refine ⟨by rw [hpause], by rw [hpause], by rw [hpause], by rw [hresume],
    by rw [hresume], ?_⟩
  intro x
  rw [hresume]
  show x ∈ resume_outputs st.gpioMap st.stirrerProcesses st.activeOutputs [] ↔ _
  rw [mem_resume_outputs]
  simp only [List.not_mem_nil, false_or]
  constructor
  · rintro ⟨h1, h2, -⟩
    exact ⟨h1, h2⟩
  · rintro ⟨h1, h2⟩
    exact ⟨h1, h2, hinv x h1⟩

/-- Witness for C7 at the concrete running state stDemo: stirrer 2 is
dispensing from tank 2 with its line asserted, so the line is deasserted on
pause and re-asserted on resume. -/
theorem pause_resume_spec_witness :
    (stDemo.timerActive = true) ∧
    (∀ k ∈ stDemo.activeOutputs, gpioGet stDemo.gpioMap k ≠ none) ∧
    ((toggle_pause stDemo).timerActive = false ∧
     (toggle_pause stDemo).pausedOutputs = stDemo.activeOutputs ∧
     (toggle_pause stDemo).activeOutputs = [] ∧
     (toggle_pause (toggle_pause stDemo)).timerActive = true ∧
     (toggle_pause (toggle_pause stDemo)).pausedOutputs = [] ∧
     (∀ x, x ∈ (toggle_pause (toggle_pause stDemo)).activeOutputs ↔
        (x ∈ stDemo.activeOutputs ∧
          stillDispensing stDemo.stirrerProcesses x = true))) :=
  ⟨rfl, by decide, pause_resume_spec stDemo rfl (by decide)⟩


/-! ### Claim C10 -/

/-- Counterexample to C10 as stated: drift of 0.0001 kg above the baseline
(reading 10.0001 against baseline 10) makes the unclamped delta -0.0001, but
rounding to 3 decimals collapses it to 0, so the logged dispensed_weight_kg
and progress_percent are 0, not negative, even though the reading exceeds the
baseline.  (The stored dispensed weight is 0 as always.) -/
theorem log_small_drift_rounds_to_zero_cex :
    stepD.startWeight < 100001 / 10000 ∧
    ((proc_tick gmapA [(2, 1)] 1 procD (some (100001 / 10000))).logs.map
        (fun e => e.dispensed_weight_kg)) = [0] ∧
    ((proc_tick gmapA [(2, 1)] 1 procD (some (100001 / 10000))).logs.map
        (fun e => e.progress_percent)) = [0] ∧
    (((proc_tick gmapA [(2, 1)] 1 procD (some (100001 / 10000))).proc.steps[0]?).map
        (fun s => s.dispensedWeight)) = some 0 := by
  have hb : stepD.startWeight ≠ 0 := by simp [stepD]
  have hprogneg : ¬ (100 : ℚ) ≤
      stepProgress (stepD.startWeight - 100001 / 10000) stepD.targetWeight := by
    norm_num [stepProgress, stepD]
  have hidx : procD.steps[procD.currentStep]? = some stepD := rfl
  have hmain :=
    proc_tick_dispense_eq gmapA [(2, 1)] 1 procD stepD (100001 / 10000) hidx hb
      hprogneg
  refine ⟨by norm_num [stepD], ?_, ?_, ?_⟩
  · rw [hmain]
    norm_num [update_dispensing_log, roundTo, pyRound, stepD]
  · rw [hmain]
    norm_num [update_dispensing_log, roundTo, pyRound, stepD]
  · rw [hmain]
    norm_num [List.getElem?_set, procD, stepD]

/-- Claim C10 amended: on a Dispensing tick the value logged as
dispensed_weight_kg is the unclamped delta baseline - reading rounded to 3
decimals (and progress_percent is the unclamped percentage rounded to 1
decimal), not the clamped in-memory value; consequently, when the reading
exceeds the baseline by more than half a rounding unit (delta times 1000
below -1/2, and unclamped percentage times 10 below -1/2), the logged
dispensed_weight_kg and progress_percent are strictly negative while the
stored dispensed weight remains 0.  (Drift smaller than the rounding
granularity logs 0 instead of a negative value; see the counterexample.) -/
theorem log_unclamped_delta_amended (m : GpioMap) (a : List OutputKey)
    (num : ℕ) (proc : StirrerProc) (step : DispensingStep) (w : ℚ)
    (hidx : proc.steps[proc.currentStep]? = some step)
    (hs : step.status = StepStatus.Dispensing)
    (hb : step.startWeight ≠ 0)
    (ht : 0 < step.targetWeight)
    (hdrift : (step.startWeight - w) * 1000 < -(1 / 2))
    (hpct : (step.startWeight - w) / step.targetWeight * 100 * 10 < -(1 / 2)) :
    (proc_tick m a num proc (some w)).logs =
      [update_dispensing_log num (proc.currentStep + 1) step.chemical
        step.targetWeight (step.startWeight - w) StepStatus.Dispensing
        step.tankName step.tankContents step.tankNumber] ∧
    roundTo 3 (step.startWeight - w) < 0 ∧
    roundTo 1 ((step.startWeight - w) / step.targetWeight * 100) < 0 ∧
    ((proc_tick m a num proc (some w)).logs.map (fun e => e.dispensed_weight_kg))
      = [roundTo 3 (step.startWeight - w)] ∧
    ((proc_tick m a num proc (some w)).logs.map (fun e => e.progress_percent))
      = [roundTo 1 ((step.startWeight - w) / step.targetWeight * 100)] ∧
    (((proc_tick m a num proc (some w)).proc.steps[proc.currentStep]?).map
        (fun s => s.dispensedWeight)) = some 0 := by
  have hlen : proc.currentStep < proc.steps.length :=
    (List.getElem?_eq_some.mp hidx).1
  have hd0 : step.startWeight - w < 0 := by nlinarith
  have hprogneg : ¬ (100 : ℚ) ≤
      stepProgress (step.startWeight - w) step.targetWeight := by
    unfold stepProgress
    rw [if_pos ht]
    intro hcon
    have h2 := le_trans hcon (min_le_right _ _)
    linarith
  have hmain := proc_tick_dispense_eq m a num proc step w hidx hb hprogneg
  have hr3 : roundTo 3 (step.startWeight - w) < 0 := by
    apply roundTo_neg
    have h10 : ((10 : ℚ)) ^ (3 : ℕ) = 1000 := by norm_num
    rw [h10]
    exact hdrift
  have hr1 : roundTo 1 ((step.startWeight - w) / step.targetWeight * 100) < 0 := by
    apply roundTo_neg
    rw [pow_one]
    exact hpct
  refine ⟨?_, hr3, hr1, ?_, ?_, ?_⟩
  · rw [hmain, hs]
  · rw [hmain]
    simp [update_dispensing_log]
  · rw [hmain]
    simp [update_dispensing_log, ht]
  · rw [hmain]
    simp [List.getElem?_set, hlen, max_eq_left (le_of_lt hd0)]

/-- Witness for the amended C10: baseline 10, reading 10.5, target 2: the
logged dispensed weight is -0.5 and the logged progress is -25.0, both
negative, while the stored dispensed weight is 0. -/
theorem log_unclamped_delta_amended_witness :
    (procD.steps[procD.currentStep]? = some stepD) ∧
    (stepD.status = StepStatus.Dispensing) ∧
    (stepD.startWeight ≠ 0) ∧
    (0 < stepD.targetWeight) ∧
    ((stepD.startWeight - 21 / 2) * 1000 < -(1 / 2)) ∧
    ((stepD.startWeight - 21 / 2) / stepD.targetWeight * 100 * 10 < -(1 / 2)) ∧
    ((proc_tick gmapA [(2, 1)] 1 procD (some (21 / 2))).logs =
      [update_dispensing_log 1 (procD.currentStep + 1) stepD.chemical
        stepD.targetWeight (stepD.startWeight - 21 / 2) StepStatus.Dispensing
        stepD.tankName stepD.tankContents stepD.tankNumber] ∧
     roundTo 3 (stepD.startWeight - 21 / 2) < 0 ∧
     roundTo 1 ((stepD.startWeight - 21 / 2) / stepD.targetWeight * 100) < 0 ∧
     ((proc_tick gmapA [(2, 1)] 1 procD (some (21 / 2))).logs.map
        (fun e => e.dispensed_weight_kg))
       = [roundTo 3 (stepD.startWeight - 21 / 2)] ∧
     ((proc_tick gmapA [(2, 1)] 1 procD (some (21 / 2))).logs.map
        (fun e => e.progress_percent))
       = [roundTo 1 ((stepD.startWeight - 21 / 2) / stepD.targetWeight * 100)] ∧
     (((proc_tick gmapA [(2, 1)] 1 procD (some (21 / 2))).proc.steps[procD.currentStep]?).map
        (fun s => s.dispensedWeight)) = some 0) :=
  ⟨rfl, rfl, by simp [stepD], by simp [stepD], by norm_num [stepD],
   by norm_num [stepD],
   log_unclamped_delta_amended gmapA [(2, 1)] 1 procD stepD (21 / 2) rfl rfl
     (by simp [stepD]) (by simp [stepD]) (by norm_num [stepD])
     (by norm_num [stepD])⟩


/-! ### Claim C8 -/

theorem set_output_drv_true (m : GpioMap) (active : List OutputKey)
    (tank stirrer : ℕ) (turnOn : Bool) :
    set_output_drv true m active tank stirrer turnOn = active := by
  unfold set_output_drv
  cases hg : gpioGet m (tank, stirrer) <;> simp

theorem set_output_drv_false (m : GpioMap) (active : List OutputKey)
    (tank stirrer : ℕ) (turnOn : Bool) :
    set_output_drv false m active tank stirrer turnOn
      = set_output m active tank stirrer turnOn := by
  unfold set_output_drv set_output
  cases hg : gpioGet m (tank, stirrer) <;> simp

theorem proc_tick_drv_false_eq (m : GpioMap) (a : List OutputKey) (num : ℕ)
    (proc : StirrerProc) (rd : Option ℚ) :
    proc_tick_drv false m a num proc rd = proc_tick m a num proc rd := by
  unfold proc_tick proc_tick_drv
  simp only [set_output_drv_false]

theorem proc_tick_drv_true_eq (m : GpioMap) (a : List OutputKey) (num : ℕ)
    (proc : StirrerProc) (rd : Option ℚ) :
    proc_tick_drv true m a num proc rd
      = { proc_tick m a num proc rd with active := a } := by
  unfold proc_tick proc_tick_drv
  simp only [set_output_drv_true]
  split
  · rfl
  · split
    · rfl
    · rfl
    · try dsimp only
      split
      all_goals try dsimp only
      all_goals split
      all_goals try split
      all_goals rfl

/-- Counterexample to C8 as stated: an exception raised while talking to the
output driver does not make the tick a no-op retry.  On a capture tick whose
every driver interaction raises (caught inside set_output, gui.py:257-258),
the step mutations of gui.py:882-883 have already happened before the driver
call and the tick then carries on: the step leaves Waiting for Dispensing,
the baseline is stored, and a log record is written, so step state is not
preserved; only the assertion-tracking update is skipped. -/
theorem exception_driver_tick_not_noop_cex :
    ((procW.steps[0]?).map (fun s => s.status)) = some StepStatus.Waiting ∧
    (((proc_tick_drv true gmapA [] 1 procW (some 10)).proc.steps[0]?).map
        (fun s => s.status)) = some StepStatus.Dispensing ∧
    (((proc_tick_drv true gmapA [] 1 procW (some 10)).proc.steps[0]?).map
        (fun s => s.startWeight)) = some 10 ∧
    (proc_tick_drv true gmapA [] 1 procW (some 10)).logs.length = 1 ∧
    (proc_tick_drv true gmapA [] 1 procW (some 10)).active = [] := by
  have h1 := proc_tick_drv_true_eq gmapA [] 1 procW (some 10)
  have h2 := proc_tick_capture_eq gmapA [] 1 procW stepW 10 rfl rfl
    (by simp [stepW])
  refine ⟨by simp [procW, stepW], ?_, ?_, ?_, ?_⟩
  · rw [h1, h2]
    simp [List.getElem?_set, procW]
  · rw [h1, h2]
    simp [List.getElem?_set, procW]
  · rw [h1, h2]
    try rfl
  · rw [h1]
    try rfl

/-- Claim C8 amended: the error handling is layered, so neither exception
class of the claim reaches the outer handler at gui.py:956-958.  An
exception raised while talking to the weight channel is caught inside
read_weight and surfaces only as a no-reading tick, which is an exact no-op
retry preserving all step and station state and every output.  An exception
raised while talking to the output driver is caught and logged inside
set_output: the tick is not a no-op, but it is harmless - the station state
evolution, the log writes and the advance decision are exactly those of a
fault-free tick, only the assertion-tracking update is skipped - so
dispensing continues on the next tick.  In either case no output is left
asserted indefinitely: the supervising cleanup path still deasserts every
asserted output. -/
theorem exception_layered_handling_amended (m : GpioMap) (a : List OutputKey)
    (num : ℕ) (proc : StirrerProc) (rd : Option ℚ)
    (hidx : proc.currentStep < proc.steps.length)
    (hinv : ∀ k ∈ a, gpioGet m k ≠ none) :
    (∀ so, read_weight so SerialResp.raised = none) ∧
    proc_tick m a num proc none =
      { active := a, proc := proc, logs := [], advance := false } ∧
    (proc_tick_drv true m a num proc rd).proc = (proc_tick m a num proc rd).proc ∧
    (proc_tick_drv true m a num proc rd).logs = (proc_tick m a num proc rd).logs ∧
    (proc_tick_drv true m a num proc rd).advance
      = (proc_tick m a num proc rd).advance ∧
    (proc_tick_drv true m a num proc rd).active = a ∧
    cleanup_gpio m a = [] := by
  have hdrv := proc_tick_drv_true_eq m a num proc rd
  refine ⟨?_, ?_, ?_, ?_, ?_, ?_, cleanup_gpio_eq_nil hinv⟩
  · intro so
    cases so <;> rfl
  · unfold proc_tick
    rw [if_neg (by omega)]
    cases h : proc.steps[proc.currentStep]? <;> rfl
  · rw [hdrv]
  · rw [hdrv]
  · rw [hdrv]
  · rw [hdrv]

/-- Witness for the amended C8: a raising weight-channel tick is a no-op on
a concrete waiting station with an asserted output elsewhere, and a raising
driver tick evolves the station exactly as the fault-free tick while leaving
the asserted set unchanged. -/
theorem exception_layered_handling_amended_witness :
    (procW.currentStep < procW.steps.length) ∧
    (∀ k ∈ ([(2, 1)] : List OutputKey), gpioGet gmapA k ≠ none) ∧
    ((∀ so, read_weight so SerialResp.raised = none) ∧
     proc_tick gmapA [(2, 1)] 1 procW none =
       { active := [(2, 1)], proc := procW, logs := [], advance := false } ∧
     (proc_tick_drv true gmapA [(2, 1)] 1 procW (some 10)).proc
       = (proc_tick gmapA [(2, 1)] 1 procW (some 10)).proc ∧
     (proc_tick_drv true gmapA [(2, 1)] 1 procW (some 10)).logs
       = (proc_tick gmapA [(2, 1)] 1 procW (some 10)).logs ∧
     (proc_tick_drv true gmapA [(2, 1)] 1 procW (some 10)).advance
       = (proc_tick gmapA [(2, 1)] 1 procW (some 10)).advance ∧
     (proc_tick_drv true gmapA [(2, 1)] 1 procW (some 10)).active = [(2, 1)] ∧
     cleanup_gpio gmapA [(2, 1)] = []) :=
  ⟨by decide, by decide,
   exception_layered_handling_amended gmapA [(2, 1)] 1 procW (some 10)
     (by decide) (by decide)⟩

end Stirrer
